import Mathlib

/-!
Verification of the enhance_forward request-rewriting gateway
(src/enhance_forward/api.py) against its natural-language specification.

Strings are modelled as `List Char`.  The regex
`<userRequest>(.*?)</userRequest>` with `re.DOTALL` used by
`get_last_user_request` is modelled by an explicit left-to-right scan
(`splitFirst` finds the first occurrence of a literal pattern, which is
exactly what the lazy `.*?` between two literal delimiters computes), and
Python's `str.replace` (which substitutes every non-overlapping occurrence,
left to right) is modelled by `pyReplace`.  Both use an explicit fuel equal
to the input length so that they are structurally recursive and evaluate by
`decide`.
-/

/-- Split a text at the first occurrence of the literal pattern `pat`:
returns `some (pre, post)` with `s = pre ++ pat ++ post` and `pre` the
shortest such prefix, or `none` when `pat` does not occur in `s`. -/
def splitFirst (pat : List Char) : List Char → Option (List Char × List Char)
  | [] => if pat = [] then some ([], []) else none
  | c :: rest =>
    if pat.isPrefixOf (c :: rest) then some ([], (c :: rest).drop pat.length)
    else
      match splitFirst pat rest with
      | some (pre, post) => some (c :: pre, post)
      | none => none

/-- The literal opening marker of api.py's inner-request regex. -/
def openTag : List Char := "<userRequest>".data

/-- The literal closing marker of api.py's inner-request regex. -/
def closeTag : List Char := "</userRequest>".data

/-- Fueled scan computing the list of captures of
`re.findall(r"<userRequest>(.*?)</userRequest>", text, re.DOTALL)`:
repeatedly find the next opening marker, then the nearest closing marker
after it, capture the text in between, and continue after the closing
marker.  The fuel only has to dominate the text length. -/
def matchesAux : Nat → List Char → List (List Char)
  | 0, _ => []
  | f + 1, s =>
    match splitFirst openTag s with
    | none => []
    | some (_, afterOpen) =>
      match splitFirst closeTag afterOpen with
      | none => []
      | some (content, afterClose) => content :: matchesAux f afterClose

/-- All captures of the inner-request regex on `s` (model of the
`re.findall` call in api.py line 55). -/
def userRequestMatches (s : List Char) : List (List Char) :=
  matchesAux s.length s

/-- Model of api.py's `get_last_user_request`: the last regex capture when
one exists, `None` otherwise. -/
def get_last_user_request (text : List Char) : Option (List Char) :=
  (userRequestMatches text).getLast?

/-- Fueled model of Python's `str.replace(old, new)`: scan left to right,
replacing every non-overlapping occurrence of `old` by `new`; an empty
`old` inserts `new` between all characters and at both ends, as in Python.
The fuel only has to dominate the length of the scanned text. -/
def replAux : Nat → List Char → List Char → List Char → List Char
  | _, [], old, new => if old = [] then new else []
  | 0, s, _, _ => s
  | f + 1, c :: rest, old, new =>
    if old ≠ [] ∧ old.isPrefixOf (c :: rest) then
      new ++ replAux f ((c :: rest).drop old.length) old new
    else if old = [] then
      new ++ c :: replAux f rest old new
    else
      c :: replAux f rest old new

/-- Model of Python's `s.replace(old, new)` (api.py line 212). -/
def pyReplace (s old new : List Char) : List Char :=
  replAux s.length s old new

/-- Interleave a separator between consecutive parts:
`glue sep [p1, p2, p3] = p1 ++ sep ++ p2 ++ sep ++ p3`.  Used to describe
texts whose occurrences of a search string sit exactly between the parts. -/
def glue (sep : List Char) : List (List Char) → List Char
  | [] => []
  | [p] => p
  | p :: q :: ps => p ++ (sep ++ glue sep (q :: ps))

/-- Build a text from a leading plain segment and a list of
(capture, trailing plain segment) pairs, each capture wrapped in the
inner-request markers:
`mkText p0 [(c1, p1), (c2, p2)] =
  p0 ++ open ++ c1 ++ close ++ p1 ++ open ++ c2 ++ close ++ p2`. -/
def mkText : List Char → List (List Char × List Char) → List Char
  | p0, [] => p0
  | p0, (c, p) :: rest => p0 ++ (openTag ++ (c ++ (closeTag ++ mkText p rest)))

-- Data model of the request handler (api.py create_chat_completion) -----------

/-- One chat message of the inbound request body. -/
structure Message where
  role : List Char
  content : Option (List Char)
deriving DecidableEq

/-- The inbound chat-completion request body: the model identifier, the
message list, the `stream` flag (absent or boolean), and all remaining
caller-supplied fields, kept opaque as key/value pairs. -/
structure ChatRequest where
  model : List Char
  messages : List Message
  stream : Option Bool
  extra : List (List Char × List Char)
deriving DecidableEq

/-- One tool call of the auxiliary model's reply: the (possibly missing)
function name reached through the getattr chain, and the raw `arguments`
string. -/
structure AuxToolCall where
  name : Option (List Char)
  arguments : List Char
deriving DecidableEq

/-- One choice of the auxiliary (cleanup) completion: its message content
and tool calls (an absent tool-call list is the empty list). -/
structure AuxChoice where
  content : Option (List Char)
  tool_calls : List AuxToolCall
deriving DecidableEq

/-- The auxiliary (cleanup) completion result. -/
structure AuxResult where
  id : List Char
  created : Nat
  usage : Option (List Char)
  choices : List AuxChoice
deriving DecidableEq

/-- The synthetic streaming chunk built in the clarification branch
(api.py lines 182-193). -/
structure OutChunk where
  id : List Char
  created : Nat
  content : List Char
  finish_reason : Option (List Char)
  usage : Option (List Char)
  model : List Char
deriving DecidableEq

/-- One outbound server-push event: either the synthetic clarification
chunk, or a verbatim-forwarded upstream chunk already framed as the text
of one event. -/
inductive OutEvent where
  | synthetic (chunk : OutChunk)
  | forwarded (text : List Char)
deriving DecidableEq

/-- What the route returns: a streaming response carrying a sequence of
outbound events, or an HTTPException with a status code and detail text. -/
inductive HandlerResult where
  | stream (events : List OutEvent)
  | httpError (status : Nat) (detail : List Char)
deriving DecidableEq

/-- The observable outcome of one request: the response, whether the
auxiliary (small-model) call was issued, whether the forwarding
(large-model) call was issued, and the body sent to the forwarding call. -/
structure HandlerOutcome where
  response : HandlerResult
  auxCalled : Bool
  forwardCalled : Bool
  forwardBody : Option ChatRequest
deriving DecidableEq

/-- Result of scanning the auxiliary reply's tool calls (the for-loop of
api.py lines 163-202). -/
inductive LoopOutcome where
  | clarify (question : List Char) (contradictions : List (List Char))
  | fallthrough
deriving DecidableEq

/-- The tool name the handler looks for. -/
def reqClarName : List Char := "request_clarification".data

/-- Default used by `tool_args.get("clarification_question", ...)`. -/
def defaultQuestion : List Char := "Please clarify your request.".data

/-- Prefix of every HTTPException detail raised by the outer except block
(api.py lines 239-243). -/
def errorPrefix : List Char := "Error creating chat completion: ".data

/-- Message of the AssertionError raised when `stream` is not `true`
(api.py line 74). -/
def streamAssertMsg : List Char :=
  "Only streaming responses are supported currently".data

/-- str() of the HTTPException raised by get_openai_client when the client
is missing from app state, as re-wrapped by the outer except block. -/
def clientErrMsg : List Char := "500: OpenAI client not initialized".data

/-- str() of the IndexError raised by an empty list subscript. -/
def indexErrMsg : List Char := "list index out of range".data

/-- str() of the TypeError raised by re.findall on a None prompt. -/
def noneContentMsg : List Char :=
  "expected string or bytes-like object, got NoneType".data

/-- str() of the TypeError raised by str.replace when user_request is
None (the no-marker case, api.py line 212). -/
def replaceNoneMsg : List Char :=
  "replace() argument 1 must be str, not NoneType".data

/-- The numbered issue list of the clarification message: the loop
`for i, contradiction in enumerate(contradictions, 1)` of api.py
lines 178-179, starting at index `i`. -/
def formatContradictions : List (List Char) → Nat → List Char
  | [], _ => []
  | c :: rest, i =>
    (Nat.repr i).data ++ (". ".data ++ (c ++ ("\n".data ++
      formatContradictions rest (i + 1))))

/-- The clarification message text (api.py lines 177-179): the question,
a fixed header, then the issues numbered from 1. -/
def clarification_response (q : List Char) (cs : List (List Char)) : List Char :=
  q ++ ("\n\nContradictions found:\n".data ++ formatContradictions cs 1)

/-- Spec-side description of an enumerated issue list: line `i+1` is the
1-based index, a dot and a space, the issue text, and a newline, in the
order the issues were supplied.  Stated independently of
`formatContradictions` so that the claim about the clarification text is
not circular. -/
def specEnumeratedIssues (cs : List (List Char)) : List Char :=
  (((List.range cs.length).zip cs).map
    (fun pr => (Nat.repr (pr.1 + 1)).data ++
      (". ".data ++ (pr.2 ++ "\n".data)))).flatten

/-- The tool-call scan of api.py lines 161-202: walk the tool calls in
order; at the first one named request_clarification, parse its arguments -
on success enter the clarification branch with the extracted question and
issue list (with the source's defaults for missing keys), on failure break
out of the loop (falling through to the cleaned-content path).  Tool calls
with any other (or missing) name are skipped.  `parseClar` models
`json.loads` plus the two dict lookups: `none` is a malformed payload
(JSONDecodeError/AttributeError), `some (q?, cs?)` a parsed object whose
keys may individually be absent. -/
def scanToolCalls
    (parseClar : List Char → Option (Option (List Char) × Option (List (List Char)))) :
    List AuxToolCall → LoopOutcome
  | [] => .fallthrough
  | tc :: rest =>
    if tc.name = some reqClarName then
      match parseClar tc.arguments with
      | some (qOpt, csOpt) => .clarify (qOpt.getD defaultQuestion) (csOpt.getD [])
      | none => .fallthrough
    else scanToolCalls parseClar rest

/-- Frame one serialized chunk as a server-sent event
(api.py line 235): a fixed marker, the payload, and a blank line. -/
def frameEvent (payload : List Char) : List Char :=
  "data: ".data ++ (payload ++ "\n\n".data)

/-- Model of api.py's event_generator (lines 233-235): one framed event
per upstream chunk, in arrival order. -/
def event_generator (chunks : List (List Char)) : List (List Char) :=
  chunks.map frameEvent

/-- The value substituted for the inner request
(api.py line 205, `choice.message.content or prompt`): the auxiliary
reply's free text, or the whole original prompt when that text is absent
or empty (Python falsiness of the empty string). -/
def cleaned_content (choice : AuxChoice) (prompt : List Char) : List Char :=
  match choice.content with
  | some c => if c = [] then prompt else c
  | none => prompt

/-- Every exception escaping the handler body is re-raised as
HTTPException(500) with the exception text appended to a fixed prefix
(api.py lines 239-243). -/
def wrapError (msg : List Char) : HandlerResult :=
  .httpError 500 (errorPrefix ++ msg)

/-- Outcome of the forwarding call (api.py lines 225-236): a failure of
the upstream streaming call is wrapped by the outer except block, a
success streams one framed event per upstream chunk. -/
def forwardOutcome (req2 : ChatRequest)
    (fr : Except (List Char) (List (List Char))) : HandlerOutcome :=
  match fr with
  | .error e => ⟨wrapError e, true, true, some req2⟩
  | .ok chunks =>
    ⟨.stream ((event_generator chunks).map .forwarded), true, true, some req2⟩

/-- Model of the route handler api.py create_chat_completion.

Inputs beyond the request body: `clientOk` is whether app state holds the
provider client; `aux` is the provider's answer to the auxiliary
(small-model) call, `Except.error` being a transport/provider failure;
`parseClar` models json.loads on tool-call arguments (see
`scanToolCalls`); `forward` is the provider's answer to the streaming
forwarding call, a lazy chunk sequence modelled as the list of serialized
chunk payloads it yields, or a failure.

The outcome records the response together with which upstream calls were
issued and the body given to the forwarding call.  The steps mirror
the source order: client lookup, the stream assertion, overwriting the
model identifier, reading the last message's content, extracting the
inner request, the auxiliary call, the tool-call scan (clarification
short-circuit), the cleaned-content substitution, and the forwarding
call whose chunks are transcoded one event per chunk. -/
def create_chat_completion
    (mini_deployment full_deployment : List Char)
    (clientOk : Bool)
    (chat_request : ChatRequest)
    (aux : Except (List Char) AuxResult)
    (parseClar : List Char → Option (Option (List Char) × Option (List (List Char))))
    (forward : ChatRequest → Except (List Char) (List (List Char))) :
    HandlerOutcome :=
  if clientOk = false then
    ⟨wrapError clientErrMsg, false, false, none⟩
  else if chat_request.stream ≠ some true then
    ⟨wrapError streamAssertMsg, false, false, none⟩
  else
    match chat_request.messages.getLast? with
    | none => ⟨wrapError indexErrMsg, false, false, none⟩
    | some lastMsg =>
      match lastMsg.content with
      | none => ⟨wrapError noneContentMsg, false, false, none⟩
      | some prompt =>
        match aux with
        | .error e => ⟨wrapError e, true, false, none⟩
        | .ok cleanup_result =>
          match cleanup_result.choices.head? with
          | none => ⟨wrapError indexErrMsg, true, false, none⟩
          | some choice =>
            match scanToolCalls parseClar choice.tool_calls with
            | .clarify q cs =>
              ⟨.stream [.synthetic
                  ⟨cleanup_result.id, cleanup_result.created,
                    clarification_response q cs, some "stop".data,
                    cleanup_result.usage, mini_deployment⟩],
                true, false, none⟩
            | .fallthrough =>
              match get_last_user_request prompt with
              | none => ⟨wrapError replaceNoneMsg, true, false, none⟩
              | some user_request =>
                let req2 : ChatRequest :=
                  ⟨full_deployment,
                    chat_request.messages.dropLast ++
                      [⟨lastMsg.role,
                        some (pyReplace prompt user_request
                          (cleaned_content choice prompt))⟩],
                    chat_request.stream, chat_request.extra⟩
                forwardOutcome req2 (forward req2)

-- Basic facts about splitFirst ------------------------------------------------

theorem splitFirst_some_eq {pat : List Char} :
    ∀ {s pre post : List Char}, splitFirst pat s = some (pre, post) →
      s = pre ++ pat ++ post := by
  intro s
  induction s with
  | nil =>
    intro pre post h
    by_cases hp : pat = []
    · simp [splitFirst, hp] at h
      obtain ⟨h1, h2⟩ := h
      subst h1; subst h2; simp [hp]
    · simp [splitFirst, hp] at h
  | cons c rest ih =>
    intro pre post h
    by_cases hpre : pat.isPrefixOf (c :: rest)
    · simp [splitFirst, hpre] at h
      obtain ⟨h1, h2⟩ := h
      obtain ⟨t, ht⟩ := List.isPrefixOf_iff_prefix.mp hpre
      subst h1
      rw [← h2, ← ht, List.drop_left]
      simp
    · simp [splitFirst, hpre] at h
      match h2 : splitFirst pat rest with
      | some (pre', post') =>
        rw [h2] at h
        simp at h
        have := ih h2
        rw [← h.1, ← h.2, this]
        simp
      | none => rw [h2] at h; simp at h

theorem head_eq_of_isPrefixOf_cons {pat : List Char} {c : Char} {t : List Char}
    (hne : pat ≠ []) (h : pat.isPrefixOf (c :: t)) : pat.head? = some c := by
  match pat with
  | [] => exact absurd rfl hne
  | a :: pat' =>
    simp [List.isPrefixOf] at h
    simp [h.1]

theorem splitFirst_eq_none {pat : List Char} {hd : Char}
    (hpat : pat.head? = some hd) :
    ∀ {s : List Char}, (∀ c ∈ s, c ≠ hd) → splitFirst pat s = none := by
  have hne : pat ≠ [] := by intro h; rw [h] at hpat; simp at hpat
  intro s
  induction s with
  | nil => intro _; simp [splitFirst, hne]
  | cons c rest ih =>
    intro hs
    have hnp : ¬ pat.isPrefixOf (c :: rest) := by
      intro h
      have := head_eq_of_isPrefixOf_cons hne h
      rw [hpat] at this
      exact hs c (by simp) (by simpa using this.symm)
    simp [splitFirst, hnp, ih (fun x hx => hs x (by simp [hx]))]

theorem splitFirst_eq_at {pat : List Char} {hd : Char}
    (hpat : pat.head? = some hd) :
    ∀ {p : List Char} (r : List Char), (∀ c ∈ p, c ≠ hd) →
      splitFirst pat (p ++ (pat ++ r)) = some (p, r) := by
  have hne : pat ≠ [] := by intro h; rw [h] at hpat; simp at hpat
  intro p
  induction p with
  | nil =>
    intro r _
    match pat, hpat with
    | a :: pat', _ =>
      have hpre : (a :: pat').isPrefixOf (a :: (pat' ++ r)) = true := by
        apply List.isPrefixOf_iff_prefix.mpr
        exact ⟨r, by simp⟩
      show splitFirst (a :: pat') ([] ++ ((a :: pat') ++ r)) = some ([], r)
      simp only [List.nil_append, List.cons_append]
      simp [splitFirst, hpre, List.drop_left]
  | cons c p' ih =>
    intro r hs
    have hnp : ¬ pat.isPrefixOf (c :: (p' ++ (pat ++ r))) := by
      intro h
      have := head_eq_of_isPrefixOf_cons hne h
      rw [hpat] at this
      exact hs c (by simp) (by simpa using this.symm)
    have := ih r (fun x hx => hs x (by simp [hx]))
    simp only [List.cons_append]
    simp [splitFirst, hnp, this]

-- Facts about pyReplace -------------------------------------------------------

theorem replAux_fuel :
    ∀ (f₁ : Nat) {f₂ : Nat} {s old new : List Char},
      s.length ≤ f₁ → s.length ≤ f₂ →
      replAux f₁ s old new = replAux f₂ s old new := by
  intro f₁
  induction f₁ with
  | zero =>
    intro f₂ s old new h1 _
    have hs : s = [] := List.eq_nil_of_length_eq_zero (Nat.le_zero.mp h1)
    subst hs
    simp [replAux]
  | succ g ih =>
    intro f₂ s old new h1 h2
    match s with
    | [] => simp [replAux]
    | c :: rest =>
      match f₂ with
      | 0 => simp at h2
      | g₂ + 1 =>
        simp only [replAux]
        by_cases hc : old ≠ [] ∧ old.isPrefixOf (c :: rest)
        · rw [if_pos hc, if_pos hc]
          have hol : 1 ≤ old.length := List.length_pos.mpr hc.1
          have hd1 : ((c :: rest).drop old.length).length ≤ g := by
            simp only [List.length_drop, List.length_cons] at *
            omega
          have hd2 : ((c :: rest).drop old.length).length ≤ g₂ := by
            simp only [List.length_drop, List.length_cons] at *
            omega
          rw [ih hd1 hd2]
        · rw [if_neg hc, if_neg hc]
          have hr1 : rest.length ≤ g := by
            simp only [List.length_cons] at h1; omega
          have hr2 : rest.length ≤ g₂ := by
            simp only [List.length_cons] at h2; omega
          by_cases ho : old = []
          · rw [if_pos ho, if_pos ho, ih hr1 hr2]
          · rw [if_neg ho, if_neg ho, ih hr1 hr2]

theorem pyReplace_nil (old new : List Char) :
    pyReplace [] old new = if old = [] then new else [] := rfl

theorem pyReplace_cons (c : Char) (rest old new : List Char) :
    pyReplace (c :: rest) old new =
      if old ≠ [] ∧ old.isPrefixOf (c :: rest) then
        new ++ pyReplace ((c :: rest).drop old.length) old new
      else if old = [] then
        new ++ c :: pyReplace rest old new
      else
        c :: pyReplace rest old new := by
  show replAux ((c :: rest).length) (c :: rest) old new = _
  simp only [List.length_cons, replAux]
  by_cases hc : old ≠ [] ∧ old.isPrefixOf (c :: rest)
  · rw [if_pos hc, if_pos hc]
    have hol : 1 ≤ old.length := List.length_pos.mpr hc.1
    have hb : ((c :: rest).drop old.length).length ≤ rest.length := by
      simp only [List.length_drop, List.length_cons]
      omega
    rw [replAux_fuel rest.length hb (le_refl _)]
    rfl
  · rw [if_neg hc, if_neg hc]
    by_cases ho : old = []
    · rw [if_pos ho, if_pos ho]; rfl
    · rw [if_neg ho, if_neg ho]; rfl

theorem pyReplace_self_fuel :
    ∀ (n : Nat) (s old : List Char), s.length ≤ n → pyReplace s old old = s := by
  intro n
  induction n with
  | zero =>
    intro s old h1
    have hs : s = [] := List.eq_nil_of_length_eq_zero (Nat.le_zero.mp h1)
    subst hs
    rw [pyReplace_nil]
    by_cases ho : old = [] <;> simp [ho]
  | succ g ih =>
    intro s old h1
    match s with
    | [] =>
      rw [pyReplace_nil]
      by_cases ho : old = [] <;> simp [ho]
    | c :: rest =>
      rw [pyReplace_cons]
      by_cases hc : old ≠ [] ∧ old.isPrefixOf (c :: rest)
      · rw [if_pos hc]
        have hol : 1 ≤ old.length := List.length_pos.mpr hc.1
        have hb : ((c :: rest).drop old.length).length ≤ g := by
          simp only [List.length_drop, List.length_cons] at *
          omega
        rw [ih _ _ hb]
        obtain ⟨t, ht⟩ := List.isPrefixOf_iff_prefix.mp hc.2
        rw [← ht, List.drop_left]
      · rw [if_neg hc]
        have hr : rest.length ≤ g := by
          simp only [List.length_cons] at h1; omega
        by_cases ho : old = []
        · rw [if_pos ho, ih _ _ hr, ho]; rfl
        · rw [if_neg ho, ih _ _ hr]

theorem pyReplace_append_left {old : List Char} {hd : Char}
    (hpat : old.head? = some hd) :
    ∀ (p : List Char) (rest new : List Char), (∀ c ∈ p, c ≠ hd) →
      pyReplace (p ++ rest) old new = p ++ pyReplace rest old new := by
  have hne : old ≠ [] := by intro h; rw [h] at hpat; simp at hpat
  intro p
  induction p with
  | nil => intro rest new _; simp
  | cons c p' ih =>
    intro rest new hs
    simp only [List.cons_append]
    rw [pyReplace_cons]
    have hnp : ¬ (old ≠ [] ∧ old.isPrefixOf (c :: (p' ++ rest))) := by
      rintro ⟨_, hp⟩
      have := head_eq_of_isPrefixOf_cons hne hp
      rw [hpat] at this
      exact hs c (by simp) (by simpa using this.symm)
    rw [if_neg hnp, if_neg hne, ih rest new (fun x hx => hs x (by simp [hx]))]

theorem pyReplace_occurrence {old : List Char} (hne : old ≠ [])
    (rest new : List Char) :
    pyReplace (old ++ rest) old new = new ++ pyReplace rest old new := by
  match old, hne with
  | a :: old', _ =>
    have hpre : (a :: old').isPrefixOf (a :: (old' ++ rest)) = true := by
      apply List.isPrefixOf_iff_prefix.mpr
      exact ⟨rest, by simp⟩
    simp only [List.cons_append]
    rw [pyReplace_cons, if_pos ⟨by simp, hpre⟩]
    simp [List.length_cons, List.drop_succ_cons, List.drop_left]

-- Facts about the inner-request regex scan ------------------------------------

theorem openTag_head : openTag.head? = some '<' := by decide

theorem closeTag_head : closeTag.head? = some '<' := by decide

theorem splitFirst_openTag_nil : splitFirst openTag [] = none := by decide

theorem matchesAux_fuel :
    ∀ (f₁ : Nat) {f₂ : Nat} {s : List Char},
      s.length ≤ f₁ → s.length ≤ f₂ → matchesAux f₁ s = matchesAux f₂ s := by
  intro f₁
  induction f₁ with
  | zero =>
    intro f₂ s h1 _
    have hs : s = [] := List.eq_nil_of_length_eq_zero (Nat.le_zero.mp h1)
    subst hs
    match f₂ with
    | 0 => rfl
    | g + 1 => simp [matchesAux, splitFirst_openTag_nil]
  | succ g ih =>
    intro f₂ s h1 h2
    match f₂ with
    | 0 =>
      have hs : s = [] := List.eq_nil_of_length_eq_zero (Nat.le_zero.mp h2)
      subst hs
      simp [matchesAux, splitFirst_openTag_nil]
    | g₂ + 1 =>
      simp only [matchesAux]
      cases ho : splitFirst openTag s with
      | none => rfl
      | some pr =>
        obtain ⟨pre, afterOpen⟩ := pr
        cases hc : splitFirst closeTag afterOpen with
        | none => simp [hc]
        | some pr2 =>
          obtain ⟨content, afterClose⟩ := pr2
          have e1 := splitFirst_some_eq ho
          have e2 := splitFirst_some_eq hc
          have l1 : s.length =
              pre.length + (openTag.length + afterOpen.length) := by
            rw [e1]; simp [List.length_append]
          have l2 : afterOpen.length =
              content.length + (closeTag.length + afterClose.length) := by
            rw [e2]; simp [List.length_append]
          have hop : openTag.length = 13 := by decide
          have hcl : closeTag.length = 14 := by decide
          have b1 : afterClose.length ≤ g := by omega
          have b2 : afterClose.length ≤ g₂ := by omega
          simp [hc, ih b1 b2]

theorem userRequestMatches_eq (s : List Char) :
    userRequestMatches s =
      match splitFirst openTag s with
      | none => []
      | some (_, afterOpen) =>
        match splitFirst closeTag afterOpen with
        | none => []
        | some (content, afterClose) =>
          content :: userRequestMatches afterClose := by
  unfold userRequestMatches
  match s with
  | [] => simp [matchesAux, splitFirst_openTag_nil]
  | c :: rest =>
    simp only [List.length_cons, matchesAux]
    cases ho : splitFirst openTag (c :: rest) with
    | none => rfl
    | some pr =>
      obtain ⟨pre, afterOpen⟩ := pr
      cases hc : splitFirst closeTag afterOpen with
      | none => simp [hc]
      | some pr2 =>
        obtain ⟨content, afterClose⟩ := pr2
        have e1 := splitFirst_some_eq ho
        have e2 := splitFirst_some_eq hc
        have l1 : (c :: rest).length =
            pre.length + (openTag.length + afterOpen.length) := by
          rw [e1]; simp [List.length_append]
        have l2 : afterOpen.length =
            content.length + (closeTag.length + afterClose.length) := by
          rw [e2]; simp [List.length_append]
        have hop : openTag.length = 13 := by decide
        have hcl : closeTag.length = 14 := by decide
        have hlen : (c :: rest).length = rest.length + 1 := by simp
        have b1 : afterClose.length ≤ rest.length := by omega
        simp [hc, userRequestMatches,
          matchesAux_fuel rest.length b1 (le_refl _)]

theorem matches_mkText :
    ∀ (pairs : List (List Char × List Char)) (p0 : List Char),
      (∀ c ∈ p0, c ≠ '<') →
      (∀ pr ∈ pairs, (∀ c ∈ pr.1, c ≠ '<') ∧ (∀ c ∈ pr.2, c ≠ '<')) →
      userRequestMatches (mkText p0 pairs) = pairs.map Prod.fst := by
  intro pairs
  induction pairs with
  | nil =>
    intro p0 h0 _
    rw [userRequestMatches_eq]
    have hnone : splitFirst openTag (mkText p0 []) = none :=
      splitFirst_eq_none openTag_head (by simpa [mkText] using h0)
    simp [hnone]
  | cons pr rest ih =>
    intro p0 h0 hp
    obtain ⟨cap, post⟩ := pr
    rw [userRequestMatches_eq]
    have h1 : splitFirst openTag (mkText p0 ((cap, post) :: rest)) =
        some (p0, cap ++ (closeTag ++ mkText post rest)) := by
      show splitFirst openTag
          (p0 ++ (openTag ++ (cap ++ (closeTag ++ mkText post rest)))) = _
      exact splitFirst_eq_at openTag_head _ h0
    have h2 : splitFirst closeTag (cap ++ (closeTag ++ mkText post rest)) =
        some (cap, mkText post rest) :=
      splitFirst_eq_at closeTag_head _ (hp (cap, post) (by simp)).1
    have := ih post (hp (cap, post) (by simp)).2
      (fun x hx => hp x (by simp [hx]))
    simp [h1, h2, this]

-- Facts about the clarification formatting and the tool-call scan -------------

theorem formatContradictions_eq :
    ∀ (cs : List (List Char)) (k : Nat),
      formatContradictions cs k =
        (((List.range cs.length).zip cs).map
          (fun pr => (Nat.repr (pr.1 + k)).data ++
            (". ".data ++ (pr.2 ++ "\n".data)))).flatten := by
  intro cs
  induction cs with
  | nil => intro k; rfl
  | cons c rest ih =>
    intro k
    simp only [formatContradictions, List.length_cons, List.range_succ_eq_map,
      List.zip_cons_cons, List.map_cons, List.flatten_cons, List.zip_map_left,
      List.map_map]
    rw [ih (k + 1)]
    have harg : ∀ pr ∈ (List.range rest.length).zip rest,
        ((fun pr : Nat × List Char => (Nat.repr (pr.1 + k)).data ++
          (". ".data ++ (pr.2 ++ "\n".data))) ∘ Prod.map Nat.succ id) pr =
        (fun pr : Nat × List Char => (Nat.repr (pr.1 + (k + 1))).data ++
          (". ".data ++ (pr.2 ++ "\n".data))) pr := by
      rintro ⟨i, x⟩ _
      simp only [Function.comp_apply, Prod.map_apply, id_eq]
      have : i.succ + k = i + (k + 1) := by omega
      rw [this]
    rw [List.map_congr_left harg]
    simp

theorem scanToolCalls_break
    (parseClar : List Char → Option (Option (List Char) × Option (List (List Char)))) :
    ∀ (tcs₁ : List AuxToolCall) (tc : AuxToolCall) (tcs₂ : List AuxToolCall),
      (∀ t ∈ tcs₁, t.name ≠ some reqClarName) →
      tc.name = some reqClarName →
      parseClar tc.arguments = none →
      scanToolCalls parseClar (tcs₁ ++ tc :: tcs₂) = .fallthrough := by
  intro tcs₁
  induction tcs₁ with
  | nil =>
    intro tc tcs₂ _ hname hparse
    simp [scanToolCalls, hname, hparse]
  | cons t rest ih =>
    intro tc tcs₂ h1 hname hparse
    simp only [List.cons_append, scanToolCalls]
    rw [if_neg (h1 t (by simp))]
    exact ih tc tcs₂ (fun x hx => h1 x (by simp [hx])) hname hparse

-- The reachable outcomes of the handler ---------------------------------------

theorem handler_forward_branch
    (mini full : List Char) (req : ChatRequest) (res : AuxResult)
    (choice : AuxChoice)
    (parseClar : List Char → Option (Option (List Char) × Option (List (List Char))))
    (forward : ChatRequest → Except (List Char) (List (List Char)))
    (lm : Message) (prompt u : List Char) (R : ChatRequest)
    (hs : req.stream = some true)
    (hlast : req.messages.getLast? = some lm)
    (hcont : lm.content = some prompt)
    (hch : res.choices.head? = some choice)
    (hscan : scanToolCalls parseClar choice.tool_calls = .fallthrough)
    (hu : get_last_user_request prompt = some u)
    (hR : R = ⟨full, req.messages.dropLast ++
        [⟨lm.role, some (pyReplace prompt u (cleaned_content choice prompt))⟩],
        req.stream, req.extra⟩) :
    create_chat_completion mini full true req (.ok res) parseClar forward =
      ⟨(match forward R with
        | .error e => wrapError e
        | .ok chunks => .stream ((event_generator chunks).map .forwarded)),
        true, true, some R⟩ := by
  subst hR
  simp only [create_chat_completion, hs, hlast, hcont, hch, hscan, hu]
  cases hF : forward ⟨full, req.messages.dropLast ++
      [⟨lm.role, some (pyReplace prompt u (cleaned_content choice prompt))⟩],
      some true, req.extra⟩ <;> rfl

-- Claim C1 --------------------------------------------------------------------

/-- C1 counterexample: on a text with no marker pair the extractor returns
no value (None), not the whole text unchanged. -/
theorem c1_counterexample :
    get_last_user_request "hello".data = none ∧
    get_last_user_request "hello".data ≠ some "hello".data := by decide

/-- C1 (amended): for every text containing at least one
userRequest marker pair, the extractor returns the content of the last
such pair; for a text with no marker pair it returns None - not the text
itself.  Texts are described as a plain segment followed by
marker-wrapped captures interleaved with plain segments; the hygiene
hypothesis (no '<' in the plain segments or captures) pins the marker
occurrences to exactly the wrapped positions. -/
theorem c1_last_marker_or_none
    (p0 : List Char) (pairs : List (List Char × List Char))
    (h0 : ∀ c ∈ p0, c ≠ '<')
    (hp : ∀ pr ∈ pairs, (∀ c ∈ pr.1, c ≠ '<') ∧ (∀ c ∈ pr.2, c ≠ '<')) :
    get_last_user_request (mkText p0 pairs) = (pairs.map Prod.fst).getLast? := by
  unfold get_last_user_request
  rw [matches_mkText pairs p0 h0 hp]

/-- C1 witness: a text with two marker pairs yields the second capture. -/
theorem c1_last_marker_or_none_witness :
    (∀ c ∈ "see ".data, c ≠ '<') ∧
    (∀ pr ∈ [("first".data, " mid ".data), ("second".data, "".data)],
      (∀ c ∈ pr.1, c ≠ '<') ∧ (∀ c ∈ pr.2, c ≠ '<')) ∧
    get_last_user_request (mkText "see ".data
      [("first".data, " mid ".data), ("second".data, "".data)]) =
      some "second".data :=
  ⟨by decide, by decide,
    (c1_last_marker_or_none "see ".data
      [("first".data, " mid ".data), ("second".data, "".data)]
      (by decide) (by decide)).trans (by decide)⟩

-- Claim C2 --------------------------------------------------------------------

/-- C2 counterexample: with content
"<userRequest>a</userRequest> a" and inner request "a", the rewrite
replaces BOTH occurrences of "a", not only the first: the later
occurrence (outside the markers) is also changed. -/
theorem c2_counterexample :
    get_last_user_request "<userRequest>a</userRequest> a".data =
      some "a".data ∧
    pyReplace "<userRequest>a</userRequest> a".data "a".data "B".data =
      "<userRequest>B</userRequest> B".data ∧
    "<userRequest>B</userRequest> B".data ≠
      "<userRequest>B</userRequest> a".data := by decide

/-- C2 (amended): the rewrite step replaces EVERY non-overlapping textual
occurrence of the inner request inside the last message's content, left
to right (Python str.replace semantics), leaving the text between
occurrences untouched; when the inner request is the whole content the
result is a full replacement.  A content whose occurrences of `old` sit
exactly between hygienic parts (no part contains the first character of
`old`) rewrites to the same parts glued with `new`. -/
theorem c2_replace_all_occurrences
    (old new : List Char) (hd : Char) (hhd : old.head? = some hd) :
    ∀ parts : List (List Char), (∀ p ∈ parts, ∀ c ∈ p, c ≠ hd) →
      pyReplace (glue old parts) old new = glue new parts := by
  have hne : old ≠ [] := by intro h; rw [h] at hhd; simp at hhd
  intro parts
  induction parts with
  | nil =>
    intro _
    show pyReplace [] old new = glue new []
    rw [pyReplace_nil]
    simp [hne, glue]
  | cons p ps ih =>
    intro hparts
    cases ps with
    | nil =>
      show pyReplace (glue old [p]) old new = glue new [p]
      have h0 : pyReplace [] old new = [] := by
        rw [pyReplace_nil]; simp [hne]
      simp only [glue]
      calc pyReplace p old new
          = pyReplace (p ++ []) old new := by simp
        _ = p ++ pyReplace [] old new :=
            pyReplace_append_left hhd p [] new (hparts p (by simp))
        _ = p := by simp [h0]
    | cons q ps' =>
      simp only [glue]
      rw [pyReplace_append_left hhd p _ new (hparts p (by simp)),
        pyReplace_occurrence hne,
        ih (fun x hx => hparts x (by simp [hx]))]

/-- C2 witness: the amended statement at the counterexample's content. -/
theorem c2_replace_all_occurrences_witness :
    (∀ p ∈ ["<userRequest>".data, "</userRequest> ".data, "".data],
      ∀ c ∈ p, c ≠ 'a') ∧
    pyReplace (glue "a".data
        ["<userRequest>".data, "</userRequest> ".data, "".data])
      "a".data "B".data =
      "<userRequest>B</userRequest> B".data :=
  ⟨by decide,
    (c2_replace_all_occurrences "a".data "B".data 'a' (by decide)
      ["<userRequest>".data, "</userRequest> ".data, "".data]
      (by decide)).trans (by decide)⟩

-- Claim C9 --------------------------------------------------------------------

/-- C9 (confirmed): substituting the inner request by an identical cleaned
text is a no-op on the last message's content: for every content and
every inner-request string, replacing the string by itself yields the
content unchanged. -/
theorem c9_substitution_idempotent (prompt u : List Char) :
    pyReplace prompt u u = prompt :=
  pyReplace_self_fuel prompt.length prompt u (le_refl _)

-- Claim C3 --------------------------------------------------------------------

/-- C3 counterexample: a malformed request_clarification payload with an
empty reply text does proceed to forwarding, but the substituted text is
the WHOLE last-message content, not the original inner request, so the
forwarded content differs from the original. -/
theorem c3_counterexample :
    (create_chat_completion "mini".data "full".data true
        ⟨"orig".data,
          [⟨"user".data, some "<userRequest>hi</userRequest>".data⟩],
          some true, []⟩
        (.ok ⟨"id0".data, 0, none,
          [⟨none, [⟨some reqClarName, "not json".data⟩]⟩]⟩)
        (fun _ => none)
        (fun _ => .ok [])).forwardBody =
      some ⟨"full".data,
        [⟨"user".data,
          some "<userRequest><userRequest>hi</userRequest></userRequest>".data⟩],
        some true, []⟩ ∧
    "<userRequest><userRequest>hi</userRequest></userRequest>".data ≠
      "<userRequest>hi</userRequest>".data ∧
    get_last_user_request "<userRequest>hi</userRequest>".data =
      some "hi".data := by decide

/-- C3 (amended): when the first request_clarification tool call of the
auxiliary reply carries malformed (unparseable) arguments and the content
holds an inner request, the request does not fail because of the parse:
the loop breaks, the outcome degrades to the cleaned-content path - the
reply's free text, or the WHOLE last-message content when that text is
empty or absent (not the original inner request) - and the request
proceeds to forwarding with that value substituted. -/
theorem c3_malformed_args_forwarding
    (mini full : List Char) (req : ChatRequest) (res : AuxResult)
    (choice : AuxChoice)
    (parseClar : List Char → Option (Option (List Char) × Option (List (List Char))))
    (forward : ChatRequest → Except (List Char) (List (List Char)))
    (lm : Message) (prompt u : List Char)
    (tcs₁ : List AuxToolCall) (tc : AuxToolCall) (tcs₂ : List AuxToolCall)
    (hs : req.stream = some true)
    (hlast : req.messages.getLast? = some lm)
    (hcont : lm.content = some prompt)
    (hch : res.choices.head? = some choice)
    (htc : choice.tool_calls = tcs₁ ++ tc :: tcs₂)
    (h1 : ∀ t ∈ tcs₁, t.name ≠ some reqClarName)
    (hname : tc.name = some reqClarName)
    (hparse : parseClar tc.arguments = none)
    (hu : get_last_user_request prompt = some u) :
    (create_chat_completion mini full true req (.ok res)
        parseClar forward).auxCalled = true ∧
    (create_chat_completion mini full true req (.ok res)
        parseClar forward).forwardCalled = true ∧
    (create_chat_completion mini full true req (.ok res)
        parseClar forward).forwardBody =
      some ⟨full, req.messages.dropLast ++
        [⟨lm.role, some (pyReplace prompt u (cleaned_content choice prompt))⟩],
        req.stream, req.extra⟩ := by
  have hscan : scanToolCalls parseClar choice.tool_calls = .fallthrough := by
    rw [htc]
    exact scanToolCalls_break parseClar tcs₁ tc tcs₂ h1 hname hparse
  have h := handler_forward_branch mini full req res choice parseClar forward
    lm prompt u _ hs hlast hcont hch hscan hu rfl
  rw [h]
  exact ⟨rfl, rfl, by rw [hs]⟩

/-- C3 witness: the amended statement at the counterexample's input. -/
theorem c3_malformed_args_forwarding_witness :
    (create_chat_completion "mini".data "full".data true
        ⟨"orig".data,
          [⟨"user".data, some "<userRequest>hi</userRequest>".data⟩],
          some true, []⟩
        (.ok ⟨"id0".data, 0, none,
          [⟨none, [⟨some reqClarName, "not json".data⟩]⟩]⟩)
        (fun _ => none)
        (fun _ => .ok ["c".data])).auxCalled = true ∧
    (create_chat_completion "mini".data "full".data true
        ⟨"orig".data,
          [⟨"user".data, some "<userRequest>hi</userRequest>".data⟩],
          some true, []⟩
        (.ok ⟨"id0".data, 0, none,
          [⟨none, [⟨some reqClarName, "not json".data⟩]⟩]⟩)
        (fun _ => none)
        (fun _ => .ok ["c".data])).forwardCalled = true ∧
    (create_chat_completion "mini".data "full".data true
        ⟨"orig".data,
          [⟨"user".data, some "<userRequest>hi</userRequest>".data⟩],
          some true, []⟩
        (.ok ⟨"id0".data, 0, none,
          [⟨none, [⟨some reqClarName, "not json".data⟩]⟩]⟩)
        (fun _ => none)
        (fun _ => .ok ["c".data])).forwardBody =
      some ⟨"full".data,
        [⟨"user".data, some (pyReplace "<userRequest>hi</userRequest>".data
          "hi".data (cleaned_content ⟨none, [⟨some reqClarName, "not json".data⟩]⟩
            "<userRequest>hi</userRequest>".data))⟩],
        some true, []⟩ :=
  c3_malformed_args_forwarding "mini".data "full".data
    ⟨"orig".data, [⟨"user".data, some "<userRequest>hi</userRequest>".data⟩],
      some true, []⟩
    ⟨"id0".data, 0, none, [⟨none, [⟨some reqClarName, "not json".data⟩]⟩]⟩
    ⟨none, [⟨some reqClarName, "not json".data⟩]⟩
    (fun _ => none) (fun _ => .ok ["c".data])
    ⟨"user".data, some "<userRequest>hi</userRequest>".data⟩
    "<userRequest>hi</userRequest>".data "hi".data
    [] ⟨some reqClarName, "not json".data⟩ []
    (by decide) (by decide) (by decide) (by decide) (by decide)
    (by decide) (by decide) (by decide) (by decide)

-- Claim C4 --------------------------------------------------------------------

/-- C4 (confirmed): when the auxiliary outcome is a parsed clarification
with question `q` and issues `cs`, the handler returns a stream of exactly
one outbound event - a synthetic terminal chunk (finish reason "stop")
whose text is the question followed by the enumerated (1-based, in-order)
list of every supplied issue - and the forwarding call is not made. -/
theorem c4_clarification_single_event
    (mini full : List Char) (req : ChatRequest) (res : AuxResult)
    (choice : AuxChoice)
    (parseClar : List Char → Option (Option (List Char) × Option (List (List Char))))
    (forward : ChatRequest → Except (List Char) (List (List Char)))
    (lm : Message) (prompt q : List Char) (cs : List (List Char))
    (hs : req.stream = some true)
    (hlast : req.messages.getLast? = some lm)
    (hcont : lm.content = some prompt)
    (hch : res.choices.head? = some choice)
    (hscan : scanToolCalls parseClar choice.tool_calls = .clarify q cs) :
    create_chat_completion mini full true req (.ok res) parseClar forward =
      ⟨.stream [.synthetic ⟨res.id, res.created,
          q ++ ("\n\nContradictions found:\n".data ++ specEnumeratedIssues cs),
          some "stop".data, res.usage, mini⟩],
        true, false, none⟩ := by
  have hresp : clarification_response q cs =
      q ++ ("\n\nContradictions found:\n".data ++ specEnumeratedIssues cs) := by
    unfold clarification_response specEnumeratedIssues
    rw [formatContradictions_eq]
  simp only [create_chat_completion, hs, hlast, hcont, hch, hscan, hresp]
  rw [if_neg (by simp), if_neg (by simp)]

/-- C4 witness: a concrete clarification with two issues yields one event
whose text enumerates them as "1." and "2.". -/
theorem c4_clarification_single_event_witness :
    create_chat_completion "mini".data "full".data true
        ⟨"orig".data, [⟨"user".data, some "fix this".data⟩], some true, []⟩
        (.ok ⟨"id1".data, 7, some "usage".data,
          [⟨none, [⟨some reqClarName, "args".data⟩]⟩]⟩)
        (fun _ => some (some "Which version?".data,
          some ["Py36 asked".data, "match used".data]))
        (fun _ => .ok []) =
      ⟨.stream [.synthetic ⟨"id1".data, 7,
          "Which version?".data ++ ("\n\nContradictions found:\n".data ++
            specEnumeratedIssues ["Py36 asked".data, "match used".data]),
          some "stop".data, some "usage".data, "mini".data⟩],
        true, false, none⟩ :=
  c4_clarification_single_event "mini".data "full".data
    ⟨"orig".data, [⟨"user".data, some "fix this".data⟩], some true, []⟩
    ⟨"id1".data, 7, some "usage".data,
      [⟨none, [⟨some reqClarName, "args".data⟩]⟩]⟩
    ⟨none, [⟨some reqClarName, "args".data⟩]⟩
    (fun _ => some (some "Which version?".data,
      some ["Py36 asked".data, "match used".data]))
    (fun _ => .ok [])
    ⟨"user".data, some "fix this".data⟩ "fix this".data
    "Which version?".data ["Py36 asked".data, "match used".data]
    (by decide) (by decide) (by decide) (by decide) (by decide)

-- Claim C5 --------------------------------------------------------------------

/-- C5 (confirmed): when the stream flag is absent or not the boolean
true, the request is rejected with the assertion failure wrapped as an
HTTP 500 error, and neither the auxiliary call nor the forwarding call is
issued. -/
theorem c5_reject_non_streaming
    (mini full : List Char) (req : ChatRequest)
    (aux : Except (List Char) AuxResult)
    (parseClar : List Char → Option (Option (List Char) × Option (List (List Char))))
    (forward : ChatRequest → Except (List Char) (List (List Char)))
    (hs : req.stream ≠ some true) :
    create_chat_completion mini full true req aux parseClar forward =
      ⟨wrapError streamAssertMsg, false, false, none⟩ := by
  unfold create_chat_completion
  rw [if_neg (by simp), if_pos hs]

/-- C5 witness: a request with the stream flag absent is rejected without
any upstream call. -/
theorem c5_reject_non_streaming_witness :
    (⟨"m".data, [⟨"user".data, some "hi".data⟩], none, []⟩ : ChatRequest).stream
      ≠ some true ∧
    create_chat_completion "mini".data "full".data true
        ⟨"m".data, [⟨"user".data, some "hi".data⟩], none, []⟩
        (.error "unused".data) (fun _ => none) (fun _ => .error "unused".data) =
      ⟨wrapError streamAssertMsg, false, false, none⟩ :=
  ⟨by decide,
    c5_reject_non_streaming "mini".data "full".data
      ⟨"m".data, [⟨"user".data, some "hi".data⟩], none, []⟩
      (.error "unused".data) (fun _ => none) (fun _ => .error "unused".data)
      (by decide)⟩

-- Claim C6 --------------------------------------------------------------------

/-- C6 (confirmed): every request reaching the forwarding branch is
forwarded with a body equal to the inbound body in every caller-supplied
field - the passthrough fields, the stream flag, all messages except the
last, and the last message's role - changed only in the model identifier
(set to the full deployment) and the last message's content (the
rewritten content). -/
theorem c6_forward_body_frame
    (mini full : List Char) (req : ChatRequest) (res : AuxResult)
    (choice : AuxChoice)
    (parseClar : List Char → Option (Option (List Char) × Option (List (List Char))))
    (forward : ChatRequest → Except (List Char) (List (List Char)))
    (lm : Message) (prompt u : List Char)
    (hs : req.stream = some true)
    (hlast : req.messages.getLast? = some lm)
    (hcont : lm.content = some prompt)
    (hch : res.choices.head? = some choice)
    (hscan : scanToolCalls parseClar choice.tool_calls = .fallthrough)
    (hu : get_last_user_request prompt = some u) :
    (create_chat_completion mini full true req (.ok res)
        parseClar forward).forwardCalled = true ∧
    (create_chat_completion mini full true req (.ok res)
        parseClar forward).forwardBody =
      some ⟨full, req.messages.dropLast ++
        [⟨lm.role, some (pyReplace prompt u (cleaned_content choice prompt))⟩],
        req.stream, req.extra⟩ := by
  have h := handler_forward_branch mini full req res choice parseClar forward
    lm prompt u _ hs hlast hcont hch hscan hu rfl
  rw [h]
  exact ⟨rfl, by rw [hs]⟩

/-- C6 witness: a concrete request with a passthrough field and a system
message is forwarded unchanged except for the model identifier and the
rewritten last content. -/
theorem c6_forward_body_frame_witness :
    (create_chat_completion "mini".data "full".data true
        ⟨"orig".data,
          [⟨"system".data, some "sys".data⟩,
            ⟨"user".data, some "<userRequest>hi</userRequest>".data⟩],
          some true, [("temperature".data, "0.7".data)]⟩
        (.ok ⟨"id2".data, 3, none, [⟨some "Hi there".data, []⟩]⟩)
        (fun _ => none)
        (fun _ => .ok ["c1".data])).forwardCalled = true ∧
    (create_chat_completion "mini".data "full".data true
        ⟨"orig".data,
          [⟨"system".data, some "sys".data⟩,
            ⟨"user".data, some "<userRequest>hi</userRequest>".data⟩],
          some true, [("temperature".data, "0.7".data)]⟩
        (.ok ⟨"id2".data, 3, none, [⟨some "Hi there".data, []⟩]⟩)
        (fun _ => none)
        (fun _ => .ok ["c1".data])).forwardBody =
      some ⟨"full".data,
        [⟨"system".data, some "sys".data⟩,
          ⟨"user".data, some (pyReplace "<userRequest>hi</userRequest>".data
            "hi".data (cleaned_content ⟨some "Hi there".data, []⟩
              "<userRequest>hi</userRequest>".data))⟩],
        some true, [("temperature".data, "0.7".data)]⟩ :=
  c6_forward_body_frame "mini".data "full".data
    ⟨"orig".data,
      [⟨"system".data, some "sys".data⟩,
        ⟨"user".data, some "<userRequest>hi</userRequest>".data⟩],
      some true, [("temperature".data, "0.7".data)]⟩
    ⟨"id2".data, 3, none, [⟨some "Hi there".data, []⟩]⟩
    ⟨some "Hi there".data, []⟩
    (fun _ => none) (fun _ => .ok ["c1".data])
    ⟨"user".data, some "<userRequest>hi</userRequest>".data⟩
    "<userRequest>hi</userRequest>".data "hi".data
    (by decide) (by decide) (by decide) (by decide) (by decide) (by decide)

-- Claim C7 --------------------------------------------------------------------

/-- C7 (confirmed): when the auxiliary (small-model) call itself fails,
the request fails with the transport error wrapped as an HTTP 500 error;
no outbound event stream is produced and the forwarding call is not
made. -/
theorem c7_aux_failure_propagates
    (mini full : List Char) (req : ChatRequest) (m : List Char)
    (parseClar : List Char → Option (Option (List Char) × Option (List (List Char))))
    (forward : ChatRequest → Except (List Char) (List (List Char)))
    (lm : Message) (prompt : List Char)
    (hs : req.stream = some true)
    (hlast : req.messages.getLast? = some lm)
    (hcont : lm.content = some prompt) :
    create_chat_completion mini full true req (.error m) parseClar forward =
      ⟨wrapError m, true, false, none⟩ := by
  simp only [create_chat_completion, hs, hlast, hcont]
  rw [if_neg (by simp), if_neg (by simp)]

/-- C7 witness: a concrete transport failure of the auxiliary call. -/
theorem c7_aux_failure_propagates_witness :
    create_chat_completion "mini".data "full".data true
        ⟨"m".data, [⟨"user".data, some "hi".data⟩], some true, []⟩
        (.error "connection reset".data)
        (fun _ => none) (fun _ => .ok []) =
      ⟨wrapError "connection reset".data, true, false, none⟩ :=
  c7_aux_failure_propagates "mini".data "full".data
    ⟨"m".data, [⟨"user".data, some "hi".data⟩], some true, []⟩
    "connection reset".data (fun _ => none) (fun _ => .ok [])
    ⟨"user".data, some "hi".data⟩ "hi".data
    (by decide) (by decide) (by decide)

-- Claim C8 --------------------------------------------------------------------

/-- C8 (confirmed): in the forwarding branch the stream transcoder emits
exactly one outbound event per upstream chunk, in arrival order, each
framed as the fixed marker, the serialized chunk unmodified, and a
blank-line terminator. -/
theorem c8_transcoder_one_event_per_chunk
    (mini full : List Char) (req : ChatRequest) (res : AuxResult)
    (choice : AuxChoice)
    (parseClar : List Char → Option (Option (List Char) × Option (List (List Char))))
    (forward : ChatRequest → Except (List Char) (List (List Char)))
    (lm : Message) (prompt u : List Char) (chunks : List (List Char))
    (hs : req.stream = some true)
    (hlast : req.messages.getLast? = some lm)
    (hcont : lm.content = some prompt)
    (hch : res.choices.head? = some choice)
    (hscan : scanToolCalls parseClar choice.tool_calls = .fallthrough)
    (hu : get_last_user_request prompt = some u)
    (hF : ∀ r, forward r = .ok chunks) :
    create_chat_completion mini full true req (.ok res) parseClar forward =
      ⟨.stream ((event_generator chunks).map .forwarded), true, true,
        some ⟨full, req.messages.dropLast ++
          [⟨lm.role, some (pyReplace prompt u (cleaned_content choice prompt))⟩],
          req.stream, req.extra⟩⟩ ∧
    (event_generator chunks).length = chunks.length ∧
    (∀ i : Nat, (event_generator chunks)[i]? =
      (chunks[i]?).map (fun c => "data: ".data ++ (c ++ "\n\n".data))) := by
  refine ⟨?_, by simp [event_generator], ?_⟩
  · have h := handler_forward_branch mini full req res choice parseClar forward
      lm prompt u _ hs hlast hcont hch hscan hu rfl
    rw [h, hF]
  · intro i
    simp only [event_generator, List.getElem?_map]
    cases chunks[i]? <;> simp [frameEvent]

/-- C8 witness: two upstream chunks become exactly two framed events in
order. -/
theorem c8_transcoder_one_event_per_chunk_witness :
    create_chat_completion "mini".data "full".data true
        ⟨"m".data, [⟨"user".data, some "<userRequest>hi</userRequest>".data⟩],
          some true, []⟩
        (.ok ⟨"id3".data, 1, none, [⟨some "Hi".data, []⟩]⟩)
        (fun _ => none) (fun _ => .ok ["k1".data, "k2".data]) =
      ⟨.stream ((event_generator ["k1".data, "k2".data]).map .forwarded),
        true, true,
        some ⟨"full".data,
          [⟨"user".data, some (pyReplace "<userRequest>hi</userRequest>".data
            "hi".data (cleaned_content ⟨some "Hi".data, []⟩
              "<userRequest>hi</userRequest>".data))⟩],
          some true, []⟩⟩ ∧
    (event_generator ["k1".data, "k2".data]).length =
      (["k1".data, "k2".data] : List (List Char)).length ∧
    (∀ i : Nat, (event_generator ["k1".data, "k2".data])[i]? =
      ((["k1".data, "k2".data] : List (List Char))[i]?).map
        (fun c => "data: ".data ++ (c ++ "\n\n".data))) :=
  c8_transcoder_one_event_per_chunk "mini".data "full".data
    ⟨"m".data, [⟨"user".data, some "<userRequest>hi</userRequest>".data⟩],
      some true, []⟩
    ⟨"id3".data, 1, none, [⟨some "Hi".data, []⟩]⟩
    ⟨some "Hi".data, []⟩
    (fun _ => none) (fun _ => .ok ["k1".data, "k2".data])
    ⟨"user".data, some "<userRequest>hi</userRequest>".data⟩
    "<userRequest>hi</userRequest>".data "hi".data
    ["k1".data, "k2".data]
    (by decide) (by decide) (by decide) (by decide) (by decide) (by decide)
    (fun _ => rfl)

-- Claim C10 -------------------------------------------------------------------

theorem forwardOutcome_response (req2 : ChatRequest)
    (fr : Except (List Char) (List (List Char))) :
    (∃ evs, (forwardOutcome req2 fr).response = .stream evs) ∨
    (∃ m, (forwardOutcome req2 fr).response = wrapError m) := by
  cases fr with
  | error e => exact .inr ⟨e, rfl⟩
  | ok chunks => exact .inl ⟨_, rfl⟩

theorem handler_response_shape
    (mini full : List Char) (clientOk : Bool) (req : ChatRequest)
    (aux : Except (List Char) AuxResult)
    (parseClar : List Char → Option (Option (List Char) × Option (List (List Char))))
    (forward : ChatRequest → Except (List Char) (List (List Char))) :
    (∃ evs, (create_chat_completion mini full clientOk req aux
      parseClar forward).response = .stream evs) ∨
    (∃ m, (create_chat_completion mini full clientOk req aux
      parseClar forward).response = wrapError m) := by
  unfold create_chat_completion
  repeat' split
  all_goals first
    | exact forwardOutcome_response _ _
    | simp [wrapError]

/-- C10 (confirmed): every failure surfaced by the handler - including
client-shape failures such as a missing stream flag or a last message
without usable content - is a single HTTP 500 error whose detail embeds
the underlying exception text after the fixed prefix. -/
theorem c10_errors_are_500_with_prefix
    (mini full : List Char) (clientOk : Bool) (req : ChatRequest)
    (aux : Except (List Char) AuxResult)
    (parseClar : List Char → Option (Option (List Char) × Option (List (List Char))))
    (forward : ChatRequest → Except (List Char) (List (List Char)))
    (s : Nat) (d : List Char)
    (h : (create_chat_completion mini full clientOk req aux
        parseClar forward).response = .httpError s d) :
    s = 500 ∧ ∃ m, d = errorPrefix ++ m := by
  rcases handler_response_shape mini full clientOk req aux parseClar forward
    with ⟨evs, he⟩ | ⟨m, he⟩
  · exact absurd (he.symm.trans h) (by simp)
  · have hcmp : wrapError m = .httpError s d := he.symm.trans h
    simp only [wrapError] at hcmp
    injection hcmp with h1 h2
    exact ⟨h1.symm, m, h2.symm⟩

/-- C10 witness: the missing-stream rejection is a 500 whose detail is the
prefix followed by the assertion text. -/
theorem c10_errors_are_500_with_prefix_witness :
    (500 : Nat) = 500 ∧
    ∃ m, errorPrefix ++ streamAssertMsg = errorPrefix ++ m :=
  c10_errors_are_500_with_prefix "mini".data "full".data true
    ⟨"m".data, [], none, []⟩ (.error "unused".data)
    (fun _ => none) (fun _ => .error "unused".data)
    500 (errorPrefix ++ streamAssertMsg) (by decide)
